import Mathlib

/-!
Verification of the orpheusdl-beatsource module (src/beatsource_api.py and
src/interface.py) against its natural-language specification.

The embedding models Python values, the HTTP status dispatch of
BeatsourceApi._get, the playlist/chart fallback and pagination of
ModuleInterface.get_playlist_info, the quality-tier resolution of
get_track_info / get_track_download, the session-expiry gate, the artwork
URL templating of _generate_artwork_url, the dual-key entity-cache lookup,
and the token refresh of BeatsourceApi.refresh.
-/

/-- String literal constants used by the source code. -/
def s404 : String := "404"

def sNotFound : String := "Not found"

def sTerritory : String := "Territory"

def sHTTPsp : String := "HTTP "

def sColonSp : String := ": "

def sRegionLocked : String := "region locked"

def sMedium : String := "medium"

def sHigh : String := "high"

def sLossless : String := "lossless"

def sLocation : String := "location"

def sDetail : String := "detail"

def sNoStream : String := "Could not get stream, exiting"

/-- Model of a Python JSON-like value: null, string, integer, list or dict.
Python None and JSON null are the same object, modelled by `pnull`. -/
inductive PyVal where
  | pnull : PyVal
  | pstr (s : String) : PyVal
  | pint (n : Int) : PyVal
  | plist (xs : List PyVal) : PyVal
  | pdict (fields : List (String × PyVal)) : PyVal

/-- Python `d.get(key)` on a dict: `some v` when the key is present
(`v` may be `pnull`), `none` when absent or when the value is not a dict. -/
def pyGet (v : PyVal) (key : String) : Option PyVal :=
  match v with
  | .pdict fields => fields.lookup key
  | _ => none

/-- Python truthiness of a value. -/
def pyTruthy (v : PyVal) : Bool :=
  match v with
  | .pnull => false
  | .pstr s => !s.isEmpty
  | .pint n => n != 0
  | .plist xs => !xs.isEmpty
  | .pdict fields => !fields.isEmpty

/-- Python truthiness of a `dict.get` result (absent key gives None, falsy). -/
def pyTruthyOpt (v : Option PyVal) : Bool :=
  match v with
  | none => false
  | some v => pyTruthy v

/-- Substring test: `listInfix pat l` is true iff `pat` occurs contiguously
in `l`; models the Python `in` operator on strings. -/
def listInfix (pat : List Char) : List Char → Bool
  | [] => pat.isEmpty
  | c :: cs => pat.isPrefixOf (c :: cs) || listInfix pat cs

/-- Python `pat in s` (substring containment). -/
def strContains (s pat : String) : Bool :=
  listInfix pat.data s.data

/-- Python exception classes raised by the module, each carrying its
message: ConnectionError, ValueError, BeatsourceError, the JSON decode
error raised by `response.json()` on a non-JSON body, the AttributeError
raised by `.get` on a non-dict, and the module exception raised through
`self.exception`. -/
inductive PyErr where
  | connErr (msg : String) : PyErr
  | valErr (msg : String) : PyErr
  | bsErr (msg : String) : PyErr
  | decodeErr (msg : String) : PyErr
  | attrErr (msg : String) : PyErr
  | moduleErr (msg : String) : PyErr
deriving DecidableEq

/-- Message of an exception, as Python `str(e)`. -/
def PyErr.msg : PyErr → String
  | .connErr m => m
  | .valErr m => m
  | .bsErr m => m
  | .decodeErr m => m
  | .attrErr m => m
  | .moduleErr m => m

/-- An upstream HTTP response: status code, raw body text, and the result
of parsing the body as JSON (`none` when the body is not valid JSON). -/
structure HttpResponse where
  status : Nat
  text : String
  json : Option PyVal

/-- Message of the ConnectionError raised by `_get` for a non-2xx status:
the Python f-string `HTTP {status}: {text}`. -/
def httpMsg (status : Nat) (text : String) : String :=
  sHTTPsp ++ Nat.repr status ++ sColonSp ++ text

/-- Embedding of `BeatsourceApi._get` (src/beatsource_api.py lines 210-230)
applied to the response it received: 401 raises ValueError with the body
text; 403 parses the body and raises BeatsourceError "region locked" when
the detail field is a string containing "Territory" (a non-JSON body makes
`r.json()` raise a decode error, and a non-dict body makes `.get` raise
AttributeError); any remaining non-2xx raises ConnectionError with status
and body; 200/201/202 return the parsed body. -/
def api_get (r : HttpResponse) : Except PyErr PyVal :=
  if r.status = 401 then
    .error (.valErr r.text)
  else
    let afterTerritory : Except PyErr Unit :=
      if r.status = 403 then
        match r.json with
        | none => .error (.decodeErr r.text)
        | some body =>
          match body with
          | .pdict _ =>
            let detail := (pyGet body sDetail).getD (.pstr "")
            match detail with
            | .pstr d =>
              if strContains d sTerritory then .error (.bsErr sRegionLocked)
              else .ok ()
            | _ => .ok ()
          | _ => .error (.attrErr r.text)
      else .ok ()
    match afterTerritory with
    | .error e => .error e
    | .ok () =>
      if r.status = 200 ∨ r.status = 201 ∨ r.status = 202 then
        match r.json with
        | some v => .ok v
        | none => .error (.decodeErr r.text)
      else
        .error (.connErr (httpMsg r.status r.text))

/-- The two catalog endpoints tried by `get_playlist_info`. -/
inductive Endpoint where
  | playlist : Endpoint
  | chart : Endpoint
deriving DecidableEq

/-- Outcome of the fetch phase of `get_playlist_info`: the ordered list of
endpoints attempted, and either the pair of raw responses together with
the is-chart flag, or the raised exception. -/
structure FetchOutcome where
  attempts : List Endpoint
  result : Except PyErr (Bool × PyVal × PyVal)

/-- One endpoint attempt of `get_playlist_info`: fetch the entity, then its
first tracks page; the first exception aborts the attempt (Python lines
330-331 and 339-340 of src/interface.py). -/
def first_attempt (meta tracks : Except PyErr PyVal) : Except PyErr (PyVal × PyVal) := do
  let a ← meta
  let b ← tracks
  pure (a, b)

/-- The condition under which `get_playlist_info` falls back to the chart
endpoint (src/interface.py line 334): the caught exception is a
ConnectionError whose message contains "404" or "Not found". -/
def fallback_condition (e : PyErr) : Bool :=
  match e with
  | .connErr m => strContains m s404 || strContains m sNotFound
  | _ => false

/-- Message of the module exception wrapping a failure of the playlist
attempt that did not trigger the fallback (src/interface.py lines 349 and
352). -/
def playlistWrapMsg (e : PyErr) : String :=
  match e with
  | .connErr m => "Failed to get playlist info (playlist endpoint): " ++ m
  | e => "Unexpected error fetching playlist info (playlist endpoint): " ++ e.msg

/-- Message of the module exception wrapping a failure of the chart retry
(src/interface.py lines 343 and 346). -/
def chartWrapMsg (e : PyErr) : String :=
  match e with
  | .connErr m => "Failed to get playlist info (tried both playlist and chart endpoints): " ++ m
  | e => "Unexpected error fetching playlist info as chart: " ++ e.msg

/-- Embedding of the fetch phase of `ModuleInterface.get_playlist_info`
(src/interface.py lines 327-352), parameterised by the outcomes of the four
upstream calls: try the playlist endpoint; on a ConnectionError whose
message contains "404" or "Not found", retry once against the chart
endpoint; any other failure (and a failure of the retry) is wrapped in the
module exception. The attempts list records which endpoints were tried. -/
def get_playlist_fetch (p pt c ct : Except PyErr PyVal) : FetchOutcome :=
  match first_attempt p pt with
  | .ok (a, b) => ⟨[.playlist], .ok (false, a, b)⟩
  | .error e =>
    if fallback_condition e then
      match first_attempt c ct with
      | .ok (a, b) => ⟨[.playlist, .chart], .ok (true, a, b)⟩
      | .error e2 => ⟨[.playlist, .chart], .error (.moduleErr (chartWrapMsg e2))⟩
    else
      ⟨[.playlist], .error (.moduleErr (playlistWrapMsg e))⟩

/-- Embedding of the expiry gate in `ModuleInterface.__init__`
(src/interface.py line 57): a token refresh is triggered before any
authorized call iff a refresh token is stored and `datetime.now()` is
strictly greater than the stored expiry. -/
def should_refresh_login (refresh_token : Option String) (now expires : Int) : Bool :=
  refresh_token.isSome && decide (expires < now)

/-- Result of the page-fetch loop of `get_playlist_info`: the accumulated
track list, the number of page fetches performed by the loop (pages 2 and
up; the page-1 fetch happens before the loop), and whether the loop
stopped early with a logged warning or error. -/
structure PageFetchResult (α : Type) where
  tracks : List α
  page_fetches : Nat
  warned : Bool
deriving DecidableEq

/-- The total used by the pagination loop (src/interface.py lines 367-371):
the `count` field when it is an integer greater than zero, else the length
of the first page. -/
def effective_total (first_len : Nat) (count : Option Int) : Nat :=
  match count with
  | some c => if 0 < c then c.toNat else first_len
  | none => first_len

/-- The loop body of `get_playlist_info` over the remaining page numbers
(src/interface.py lines 377-399): fetch each page; stop with a logged
error on an exception, stop with a logged warning on an empty page, extend
the accumulator otherwise, and stop once the expected total is reached. -/
def fetchRemaining {α : Type} (total : Nat) (fetchPage : Nat → Except PyErr (List α)) :
    List Nat → List α → Nat → Nat → PageFetchResult α
  | [], acc, _, fetches => ⟨acc, fetches, false⟩
  | page :: rest, acc, num_fetched, fetches =>
    match fetchPage page with
    | .error _ => ⟨acc, fetches + 1, true⟩
    | .ok new_tracks =>
      if new_tracks.isEmpty then ⟨acc, fetches + 1, true⟩
      else
        let acc2 := acc ++ new_tracks
        let nf := num_fetched + new_tracks.length
        if total ≤ nf then ⟨acc2, fetches + 1, false⟩
        else fetchRemaining total fetchPage rest acc2 nf (fetches + 1)

/-- Embedding of the pagination of `get_playlist_info`
(src/interface.py lines 367-399): read the count from the first page
response, and when it exceeds the first page length loop over pages
`2 .. (total - 1) / 100 + 1` (the Python `range(2, (total_tracks - 1) //
per_page + 2)` with `per_page = 100`), accumulating extracted track lists. -/
def paginate_tracks {α : Type} (first_page : List α) (count : Option Int)
    (fetchPage : Nat → Except PyErr (List α)) : PageFetchResult α :=
  let total := effective_total first_page.length count
  if first_page.length < total then
    fetchRemaining total fetchPage (List.range' 2 ((total - 1) / 100)) first_page
      first_page.length 0
  else ⟨first_page, 0, false⟩

/-- A raw playlist track record, restricted to the fields the reconciliation
step reads or writes: the id, and the two fields assigned by the
numbering pass. -/
structure BTrack where
  id : Option Int
  track_number : Option Nat
  total_tracks : Option Nat
deriving DecidableEq

/-- The id under which a list entry is cached, when the entry is a truthy
dict with a truthy id (Python `if track and track.get("id")`,
src/interface.py line 405). -/
def validId (ot : Option BTrack) : Option Int :=
  match ot with
  | some t =>
    match t.id with
    | some k => if k ≠ 0 then some k else none
    | none => none
  | none => none

/-- The annotated copy of a track: `track["track_number"] = i + 1` and
`track["total_tracks"] = n` (src/interface.py lines 406-407). -/
def annotTrack (t : BTrack) (i n : Nat) : BTrack :=
  { t with track_number := some (i + 1), total_tracks := some n }

/-- The numbering-and-cache pass of `get_playlist_info`
(src/interface.py lines 401-410), iterating from index `i`: each entry
with a truthy id is annotated in place and appended to the cache in
iteration order; other entries are skipped with a logged warning. -/
def annotateFrom (n : Nat) : Nat → List (Option BTrack) →
    List (Option BTrack) × List (Int × BTrack)
  | _, [] => ([], [])
  | i, ot :: rest =>
    let tail := annotateFrom n (i + 1) rest
    match ot with
    | some t =>
      match t.id with
      | some k =>
        if k ≠ 0 then
          let t2 := annotTrack t i n
          (some t2 :: tail.1, (k, t2) :: tail.2)
        else (ot :: tail.1, tail.2)
      | none => (ot :: tail.1, tail.2)
    | none => (none :: tail.1, tail.2)

/-- The full numbering-and-cache pass over the final track list: `n` is
`actual_total_tracks = len(playlist_tracks)` (src/interface.py line 403). -/
def annotateAndCache (tracks : List (Option BTrack)) :
    List (Option BTrack) × List (Int × BTrack) :=
  annotateFrom tracks.length 0 tracks

/-- Lookup in the entity cache built by repeated Python dict assignment:
the last assignment to a key wins. -/
def dictLookup (cache : List (Int × BTrack)) (k : Int) : Option BTrack :=
  match cache with
  | [] => none
  | (k2, v) :: rest =>
    match dictLookup rest k with
    | some v2 => some v2
    | none => if k2 = k then some v else none

/-- The abstract quality tiers of the host framework (utils.models
QualityEnum, as used by the module). -/
inductive QualityEnum where
  | MINIMUM : QualityEnum
  | LOW : QualityEnum
  | MEDIUM : QualityEnum
  | HIGH : QualityEnum
  | LOSSLESS : QualityEnum
  | HIFI : QualityEnum
  | ATMOS : QualityEnum
deriving DecidableEq

/-- The codecs the module emits. -/
inductive CodecEnum where
  | FLAC : CodecEnum
  | AAC : CodecEnum
deriving DecidableEq

/-- The quality tier mapping as initialised in `ModuleInterface.__init__`
(src/interface.py lines 33-41): every tier maps to "medium". -/
def quality_parse_init : QualityEnum → String
  | .MINIMUM => sMedium
  | .LOW => sMedium
  | .MEDIUM => sMedium
  | .HIGH => sMedium
  | .LOSSLESS => sMedium
  | .HIFI => sMedium
  | .ATMOS => sMedium

/-- The quality tier mapping after `valid_account` detects a Pro
subscription (src/interface.py lines 150-152): HIGH maps to "high", HIFI
and LOSSLESS map to "lossless", everything else keeps its initial value. -/
def quality_parse_pro : QualityEnum → String
  | .HIGH => sHigh
  | .HIFI => sLossless
  | .LOSSLESS => sLossless
  | q => quality_parse_init q

/-- Embedding of the codec/bitrate/bit-depth resolution in
`get_track_info` (src/interface.py lines 612-624): LOSSLESS and HIFI give
FLAC at 1411 kbps and 16 bit; every other tier gives AAC, at 256 kbps when
the tier is HIGH and the quality tier mapping currently maps HIGH to
"high", else at 128 kbps, with no bit depth. -/
def resolve_stream_quality (quality_parse : QualityEnum → String)
    (quality_tier : QualityEnum) : CodecEnum × Nat × Option Nat :=
  if quality_tier = .LOSSLESS ∨ quality_tier = .HIFI then
    (.FLAC, 1411, some 16)
  else
    (.AAC, if quality_tier = .HIGH ∧ quality_parse .HIGH = sHigh then 256 else 128, none)

/-- Download type of the returned record (always URL here). -/
inductive DownloadEnum where
  | URL : DownloadEnum
deriving DecidableEq

/-- The record returned by `get_track_download`. -/
structure TrackDownloadInfo where
  download_type : DownloadEnum
  file_url : PyVal

/-- Embedding of `ModuleInterface.get_track_download`
(src/interface.py lines 667-680), parameterised by the upstream download
endpoint (`api q` is the parsed response of
`catalog/tracks/{id}/download?quality=q`): the tier is mapped through the
quality tier mapping, and the response must carry a truthy `location`,
which becomes the file URL; otherwise the module exception is raised. The
first component records the quality string that was requested upstream. -/
def get_track_download_m (quality_parse : QualityEnum → String)
    (api : String → PyVal) (quality_tier : QualityEnum) :
    String × Except PyErr TrackDownloadInfo :=
  let request_quality := quality_parse quality_tier
  let stream_data := api request_quality
  let location := (pyGet stream_data sLocation).getD .pnull
  if pyTruthy location = false then
    (request_quality, .error (.moduleErr sNoStream))
  else
    (request_quality, .ok ⟨.URL, location⟩)

/-- A key of the entity cache passed through `data` kwargs: the Python
dicts mix string and integer keys for the same logical id. -/
inductive CacheKey where
  | str (s : String) : CacheKey
  | int (n : Nat) : CacheKey
deriving DecidableEq

/-- Python `track_id.isdigit()` for an ASCII string. -/
def strIsDigit (s : String) : Bool :=
  !s.isEmpty && s.data.all Char.isDigit

/-- Python `int(track_id)` for a digit string. -/
def strToNat (s : String) : Nat :=
  s.data.foldl (fun a c => a * 10 + (c.toNat - 48)) 0

/-- Embedding of the dual-representation cache lookup shared by
`get_track_info` (src/interface.py lines 558-559) and `get_track_cover`
(lines 658-659): look the string id up first, and when that misses and the
id is a digit string, look up its integer form. -/
def lookup_track_data (data : List (CacheKey × BTrack)) (track_id : String) :
    Option BTrack :=
  match data.lookup (CacheKey.str track_id) with
  | some t => some t
  | none =>
    if strIsDigit track_id then data.lookup (CacheKey.int (strToNat track_id))
    else none

/-- The cached-or-fetched track record of `get_track_info` and
`get_track_cover` (src/interface.py lines 558-561 and 658-660): the cached
record when either key form is present, else the result of
`self.session.get_track(track_id)`; the flag records whether the API
fallback fired. -/
def resolve_track_data (data : List (CacheKey × BTrack)) (track_id : String)
    (fetch : Unit → BTrack) : BTrack × Bool :=
  match lookup_track_data data track_id with
  | some t => (t, false)
  | none => (fetch (), true)

/-- The token state owned by `BeatsourceApi` (src/beatsource_api.py lines
22-24): access token and refresh token are arbitrary Python values
(initially None, modelled by `pnull`), the expiry is an absolute
timestamp or None. -/
structure ApiSession where
  access_token : PyVal
  refresh_token : PyVal
  expires : Option Int

/-- The synthesized error record returned by `refresh` when the error body
is not JSON (src/beatsource_api.py line 180). -/
def refreshFailedDict (text : String) : PyVal :=
  .pdict [("error", .pstr "refresh_failed"), ("detail", .pstr text)]

/-- The error record returned by `refresh` when a 200 response body lacks
the required fields (src/beatsource_api.py line 191). -/
def invalidRefreshDict (body : PyVal) : PyVal :=
  .pdict [("error", .pstr "invalid_refresh_response"), ("detail", body)]

/-- Embedding of `BeatsourceApi.refresh` (src/beatsource_api.py lines
158-196), applied to the session state and the HTTP response of the token
endpoint. On a non-200 status it returns the parsed body when the body is
JSON (Python returns whatever `r.json()` gives, including None for a
literal JSON null body) or the synthesized error record otherwise, with no
change to the session. On a 200 status it parses the body (raising a
decode error when it is not JSON and AttributeError when it is not a
dict), stores the access token, keeps the old refresh token unless the
body carries one, and either returns the invalid-response record (leaving
the old expiry) when the access token is falsy or `expires_in` is missing,
or stores `now + expires_in` and returns None (`pnull`). -/
def apiRefresh (sess : ApiSession) (r : HttpResponse) (now : Int) :
    Except PyErr (ApiSession × PyVal) :=
  if r.status ≠ 200 then
    match r.json with
    | some v => .ok (sess, v)
    | none => .ok (sess, refreshFailedDict r.text)
  else
    match r.json with
    | none => .error (.decodeErr r.text)
    | some r_data =>
      match r_data with
      | .pdict _ =>
        let new_access := (pyGet r_data "access_token").getD .pnull
        let new_refresh :=
          match pyGet r_data "refresh_token" with
          | some v => v
          | none => sess.refresh_token
        let expires_in := pyGet r_data "expires_in"
        let sess2 : ApiSession :=
          { sess with access_token := new_access, refresh_token := new_refresh }
        if pyTruthy new_access = false ∨ expires_in.isNone = true then
          .ok (sess2, invalidRefreshDict r_data)
        else
          match expires_in with
          | some (.pint e) => .ok ({ sess2 with expires := some (now + e) }, .pnull)
          | _ => .error (.attrErr r.text)
      | _ => .error (.attrErr r.text)

/-- The opening brace character, code 123. -/
def braceOpen : Char := Char.ofNat 123

/-- The closing brace character, code 125. -/
def braceClose : Char := Char.ofNat 125

/-- The template the resolution pattern is rewritten to
(src/interface.py line 200), as a character list. -/
def whTemplate : List Char :=
  [braceOpen, 'w', braceClose, 'x', braceOpen, 'h', braceClose]

/-- Length of the leading run of decimal digits. -/
def leadDigits : List Char → Nat
  | [] => 0
  | c :: cs => if c.isDigit then leadDigits cs + 1 else 0

/-- Greedy match of the second `\d{3,4}` of the resolution pattern: four
digits when available, else three, else no match. -/
def secondRun (l : List Char) : Option Nat :=
  if 4 ≤ leadDigits l then some 4
  else if 3 ≤ leadDigits l then some 3
  else none

/-- Match of the Python regex `\d{3,4}x\d{3,4}` anchored at the head of
the list, with the greedy backtracking of `re`: the first run takes four
digits followed by an `x` when possible, else three digits followed by an
`x`; the second run is `secondRun`. Returns the total match length. -/
def matchResAt (l : List Char) : Option Nat :=
  if 4 ≤ leadDigits l ∧ l.get? 4 = some 'x' then
    (secondRun (l.drop 5)).map (fun b => 5 + b)
  else if 3 ≤ leadDigits l ∧ l.get? 3 = some 'x' then
    (secondRun (l.drop 4)).map (fun b => 4 + b)
  else none

/-- Python `re.search(res_pattern, cover_url)` is not None: some position
carries a match. -/
def hasResMatch : List Char → Bool
  | [] => false
  | c :: cs => (matchResAt (c :: cs)).isSome || hasResMatch cs

/-- Fuel-indexed scan of `re.sub(res_pattern, template, cover_url)`:
left to right, replacing each non-overlapping match by the template. The
fuel is an upper bound on the number of characters still to scan. -/
def subAllAux : Nat → List Char → List Char
  | 0, l => l
  | _ + 1, [] => []
  | fuel + 1, c :: cs =>
    match matchResAt (c :: cs) with
    | some n => whTemplate ++ subAllAux fuel ((c :: cs).drop n)
    | none => c :: subAllAux fuel cs

/-- Python `re.sub(res_pattern, "TEMPLATE", cover_url)` where TEMPLATE is
the `w` by `h` brace template. -/
def subAll (l : List Char) : List Char :=
  subAllAux l.length l

/-- Python `cover_url.format(w=size, h=size)` for a format string whose
only replacement fields are the `w` and `h` template fields: each such
field is replaced by `rep`. (On other brace fields Python `format` raises;
the theorems below only quantify over URLs without such fields.) -/
def formatWH (rep : List Char) : List Char → List Char
  | [] => []
  | c :: k :: c2 :: rest =>
    if c = braceOpen ∧ (k = 'w' ∨ k = 'h') ∧ c2 = braceClose then
      rep ++ formatWH rep rest
    else c :: formatWH rep (k :: c2 :: rest)
  | c :: cs => c :: formatWH rep cs

/-- Fuel-indexed decimal digit characters of a natural number. -/
def natCharsAux : Nat → Nat → List Char
  | 0, _ => []
  | fuel + 1, n =>
    if n < 10 then [Char.ofNat (48 + n)]
    else natCharsAux fuel (n / 10) ++ [Char.ofNat (48 + n % 10)]

/-- Decimal digit characters of a natural number, as Python `str(size)`
interpolates it. -/
def natChars (n : Nat) : List Char :=
  natCharsAux (n + 1) n

/-- Embedding of `ModuleInterface._generate_artwork_url`
(src/interface.py lines 189-203) with the default `max_size = 1400`: cap
the size, rewrite a literal `\d{3,4}x\d{3,4}` resolution into the brace
template when the pattern occurs, then substitute the capped size for
both template fields. -/
def generate_artwork_url (cover_url : List Char) (size : Nat) : List Char :=
  let sz := if size > 1400 then 1400 else size
  let templated := if hasResMatch cover_url then subAll cover_url else cover_url
  formatWH (natChars sz) templated

def sNull : String := "null"

/-- C7 counterexample: the claim says a refresh is triggered iff `now` is
not strictly before `expires`, so at `now = expires` it predicts a
refresh; the code compares with strict `>` (src/interface.py line 57) and
does not refresh at that instant. -/
theorem session_expiry_counterexample :
    ¬(should_refresh_login (some sMedium) 5 5 = true ↔ ¬((5 : Int) < 5)) := by
  decide

/-- C7, amended: with a refresh token stored, the module triggers a token
refresh before any authorized call iff `expires < now` strictly; the
stored session is treated as valid while `now ≤ expires`, including the
boundary instant `now = expires`. -/
theorem session_expiry_spec (refresh_token : Option String) (now expires : Int) :
    should_refresh_login refresh_token now expires = true ↔
      (refresh_token.isSome = true ∧ expires < now) := by
  simp [should_refresh_login]

/-- C5 counterexample: a 403 response whose body is not JSON makes `_get`
raise the JSON decode error from `r.json()` (src/beatsource_api.py line
223), not the generic ConnectionError carrying status and body that the
claim requires for every non-2xx status other than 401 and
territory-restricted 403. -/
theorem api_get_counterexample :
    api_get ⟨403, sNotFound, none⟩ = .error (.decodeErr sNotFound) ∧
      PyErr.decodeErr sNotFound ≠ .connErr (httpMsg 403 sNotFound) := by
  exact ⟨rfl, by decide⟩

/-- C5, amended: `_get` returns the parsed body on 200/201/202, raises
ValueError (unauthorized) on 401, raises BeatsourceError "region locked"
on a 403 whose JSON dict body has a string detail containing "Territory",
raises the decode error on a 403 whose body is not JSON, raises the
AttributeError from `.get` on a 403 whose body is JSON but not a dict,
and raises ConnectionError with status and body on every other non-2xx
status, including a 403 whose dict body has no Territory string detail. -/
theorem api_get_spec (r : HttpResponse) :
    ((r.status = 200 ∨ r.status = 201 ∨ r.status = 202) →
      ∀ v, r.json = some v → api_get r = .ok v) ∧
    (r.status = 401 → api_get r = .error (.valErr r.text)) ∧
    (r.status = 403 → ∀ fields d, r.json = some (.pdict fields) →
      pyGet (.pdict fields) sDetail = some (.pstr d) → strContains d sTerritory = true →
      api_get r = .error (.bsErr sRegionLocked)) ∧
    (r.status = 403 → r.json = none → api_get r = .error (.decodeErr r.text)) ∧
    (¬(r.status = 200 ∨ r.status = 201 ∨ r.status = 202) → r.status ≠ 401 →
      r.status ≠ 403 → api_get r = .error (.connErr (httpMsg r.status r.text))) ∧
    (r.status = 403 → ∀ fields, r.json = some (.pdict fields) →
      (∀ d, (pyGet (.pdict fields) sDetail).getD (.pstr "") = .pstr d →
        strContains d sTerritory = false) →
      api_get r = .error (.connErr (httpMsg r.status r.text))) ∧
    (r.status = 403 → ∀ v, r.json = some v → (∀ fields, v ≠ .pdict fields) →
      api_get r = .error (.attrErr r.text)) := by
  refine ⟨?_, ?_, ?_, ?_, ?_, ?_, ?_⟩
  · rintro (h | h | h) v hv <;> simp [api_get, h, hv]
  · intro h
    simp [api_get, h]
  · intro h fields d hjson hdetail hterr
    simp [api_get, h, hjson, hdetail, hterr]
  · intro h hjson
    simp [api_get, h, hjson]
  · intro h2 h401 h403
    simp [api_get, h2, h401, h403]
  · intro h fields hjson hdetail
    rcases hd : (pyGet (.pdict fields) sDetail).getD (.pstr "") with _ | s | n | xs | fs
    · simp [api_get, h, hjson, hd]
    · simp [api_get, h, hjson, hd, hdetail s hd]
    · simp [api_get, h, hjson, hd]
    · simp [api_get, h, hjson, hd]
    · simp [api_get, h, hjson, hd]
  · intro h v hv hnd
    rcases v with _ | s2 | n | xs | fields
    · simp [api_get, h, hv]
    · simp [api_get, h, hv]
    · simp [api_get, h, hv]
    · simp [api_get, h, hv]
    · exact absurd rfl (hnd fields)

/-- C5 witness: concrete evaluations through `api_get_spec`. -/
theorem api_get_spec_witness :
    api_get ⟨200, sMedium, some (.pstr sHigh)⟩ = .ok (.pstr sHigh) ∧
    api_get ⟨401, sMedium, none⟩ = .error (.valErr sMedium) ∧
    api_get ⟨500, sMedium, some .pnull⟩ = .error (.connErr (httpMsg 500 sMedium)) ∧
    api_get ⟨403, sMedium, some (.pstr sHigh)⟩ = .error (.attrErr sMedium) :=
  ⟨(api_get_spec _).1 (Or.inl rfl) _ rfl,
   (api_get_spec _).2.1 rfl,
   (api_get_spec _).2.2.2.2.1 (by decide) (by decide) (by decide),
   (api_get_spec _).2.2.2.2.2.2 rfl _ rfl (fun _ h => PyVal.noConfusion h)⟩

/-- C2: for every state of the quality tier mapping and every tier, the
stream parameters of `get_track_info` are FLAC at 1411 kbps and 16 bit iff
the tier is LOSSLESS or HIFI; otherwise the codec is AAC, and the bitrate
is 256 iff the tier is HIGH and the mapping sends HIGH to "high", else
128. -/
theorem resolve_stream_quality_spec (qp : QualityEnum → String) (t : QualityEnum) :
    ((resolve_stream_quality qp t).1 = .FLAC ∧ (resolve_stream_quality qp t).2.1 = 1411 ∧
        (resolve_stream_quality qp t).2.2 = some 16 ↔ (t = .LOSSLESS ∨ t = .HIFI)) ∧
    ((resolve_stream_quality qp t).1 = .AAC ↔ ¬(t = .LOSSLESS ∨ t = .HIFI)) ∧
    (¬(t = .LOSSLESS ∨ t = .HIFI) →
      (((resolve_stream_quality qp t).2.1 = 256 ↔ (t = .HIGH ∧ qp .HIGH = sHigh)) ∧
        ((resolve_stream_quality qp t).2.1 = 128 ↔ ¬(t = .HIGH ∧ qp .HIGH = sHigh)))) := by
  by_cases hL : t = .LOSSLESS ∨ t = .HIFI
  · simp [resolve_stream_quality, hL]
  · by_cases hH : t = .HIGH ∧ qp .HIGH = sHigh <;>
      simp [resolve_stream_quality, hL, hH]

/-- C2 witness: with the initial mapping HIGH resolves to AAC 128; with
the post-validation Pro mapping HIGH resolves to AAC 256; HIFI resolves to
FLAC under any mapping. -/
theorem resolve_stream_quality_spec_witness :
    (resolve_stream_quality quality_parse_init .HIGH).2.1 = 128 ∧
    (resolve_stream_quality quality_parse_pro .HIGH).2.1 = 256 ∧
    (resolve_stream_quality quality_parse_init .HIFI).1 = .FLAC :=
  ⟨((resolve_stream_quality_spec quality_parse_init .HIGH).2.2 (by decide)).2.mpr (by decide),
   ((resolve_stream_quality_spec quality_parse_pro .HIGH).2.2 (by decide)).1.mpr
     ⟨rfl, rfl⟩,
   (((resolve_stream_quality_spec quality_parse_init .HIFI).1.mpr (Or.inr rfl))).1⟩

/-- C6: with the never-upgraded (non-Pro) quality tier mapping,
`get_track_download` for HIFI requests the upstream quality string
"medium"; when the upstream response carries a truthy `location` the
returned record is a URL download whose file URL is exactly that location
value, and when the location is absent or falsy the module exception is
raised instead of returning. -/
theorem get_track_download_spec (api : String → PyVal) :
    (get_track_download_m quality_parse_init api .HIFI).1 = sMedium ∧
    (∀ v, pyGet (api sMedium) sLocation = some v → pyTruthy v = true →
      (get_track_download_m quality_parse_init api .HIFI).2 =
        .ok ⟨.URL, v⟩) ∧
    (pyTruthy ((pyGet (api sMedium) sLocation).getD .pnull) = false →
      (get_track_download_m quality_parse_init api .HIFI).2 =
        .error (.moduleErr sNoStream)) := by
  refine ⟨?_, ?_, ?_⟩
  · simp [get_track_download_m, quality_parse_init, apply_ite]
  · intro v hv ht
    simp [get_track_download_m, quality_parse_init, hv, ht]
  · intro hf
    simp [get_track_download_m, quality_parse_init] at hf ⊢
    simp [hf]

/-- C6 witness: a response with a non-empty location string yields that
location as the file URL, and a response without one raises. -/
theorem get_track_download_spec_witness :
    (get_track_download_m quality_parse_init
        (fun _ => .pdict [(sLocation, .pstr sHigh)]) .HIFI).2 =
      .ok ⟨.URL, .pstr sHigh⟩ ∧
    (get_track_download_m quality_parse_init (fun _ => .pdict []) .HIFI).2 =
      .error (.moduleErr sNoStream) :=
  ⟨(get_track_download_spec _).2.1 _ rfl rfl,
   (get_track_download_spec _).2.2 rfl⟩

/-- C9: the entity-cache lookup shared by `get_track_info` and
`get_track_cover` finds the cached record whether it is keyed by the
string form or by the integer form of a numeric-string id, and falls back
to the track API exactly when neither key form is present. -/
theorem cache_lookup_spec (data : List (CacheKey × BTrack)) (track_id : String)
    (t : BTrack) (fetch : Unit → BTrack) :
    (data.lookup (CacheKey.str track_id) = some t →
      resolve_track_data data track_id fetch = (t, false)) ∧
    (data.lookup (CacheKey.str track_id) = none → strIsDigit track_id = true →
      data.lookup (CacheKey.int (strToNat track_id)) = some t →
      resolve_track_data data track_id fetch = (t, false)) ∧
    (data.lookup (CacheKey.str track_id) = none →
      (strIsDigit track_id = true → data.lookup (CacheKey.int (strToNat track_id)) = none) →
      resolve_track_data data track_id fetch = (fetch (), true)) := by
  refine ⟨?_, ?_, ?_⟩
  · intro hs
    simp [resolve_track_data, lookup_track_data, hs]
  · intro hs hdig hi
    simp [resolve_track_data, lookup_track_data, hs, hdig, hi]
  · intro hs hmiss
    rcases hdig : strIsDigit track_id with _ | _
    · simp [resolve_track_data, lookup_track_data, hs, hdig]
    · simp [resolve_track_data, lookup_track_data, hs, hdig, hmiss hdig]

/-- C9 witness: an integer-keyed cache entry is found for the string id
"7", and an empty cache falls back to the API fetch. -/
theorem cache_lookup_spec_witness :
    resolve_track_data [(CacheKey.int 7, (⟨some 7, none, none⟩ : BTrack))]
        (Nat.repr 7) (fun _ => ⟨none, none, none⟩) =
      ((⟨some 7, none, none⟩ : BTrack), false) ∧
    resolve_track_data [] (Nat.repr 7) (fun _ => (⟨none, none, none⟩ : BTrack)) =
      ((⟨none, none, none⟩ : BTrack), true) :=
  ⟨(cache_lookup_spec _ _ _ _).2.1 rfl rfl rfl,
   (cache_lookup_spec _ _ ⟨none, none, none⟩ _).2.2 rfl (fun _ => rfl)⟩

/-- A pattern is a prefix of itself followed by anything. -/
theorem isPrefixOf_self_append (pat t : List Char) : pat.isPrefixOf (pat ++ t) = true := by
  induction pat with
  | nil => cases t <;> rfl
  | cons c p ih => simp [List.isPrefixOf, ih]

/-- A substring occurrence survives prepending a character. -/
theorem listInfix_cons_of (pat : List Char) (c : Char) (l : List Char)
    (h : listInfix pat l = true) : listInfix pat (c :: l) = true := by
  simp [listInfix, h]

/-- The pattern occurs in any list that starts with it. -/
theorem listInfix_self_append (pat t : List Char) : listInfix pat (pat ++ t) = true := by
  cases pat with
  | nil => cases t <;> rfl
  | cons c p => simp [listInfix, isPrefixOf_self_append]

/-- Every ConnectionError message produced by `_get` for a 404 response
satisfies the fallback condition of `get_playlist_info`. -/
theorem fallback_condition_of_404 (txt : String) :
    fallback_condition (.connErr (httpMsg 404 txt)) = true := by
  have h1 : httpMsg 404 txt = String.mk ("HTTP 404: ".data ++ txt.data) := by
    have h0 : httpMsg 404 txt = "HTTP 404: " ++ txt := rfl
    rw [h0]
    rcases txt with ⟨d⟩
    rfl
  have h2 : strContains (httpMsg 404 txt) s404 = true := by
    rw [h1]
    show listInfix s404.data ("HTTP 404: ".data ++ txt.data) = true
    have hsplit : "HTTP 404: ".data ++ txt.data =
        'H' :: 'T' :: 'T' :: 'P' :: ' ' :: (s404.data ++ (':' :: ' ' :: txt.data)) := rfl
    rw [hsplit]
    exact listInfix_cons_of _ _ _ (listInfix_cons_of _ _ _ (listInfix_cons_of _ _ _
      (listInfix_cons_of _ _ _ (listInfix_cons_of _ _ _ (listInfix_self_append _ _)))))
  simp [fallback_condition, h2]

/-- C1 counterexample: a 500 response whose body contains "Not found"
makes `_get` raise a non-404 ConnectionError, and `get_playlist_info`
nevertheless retries the chart endpoint, contradicting the claim that a
non-404 error from the playlist endpoint propagates with no fallback. -/
theorem get_playlist_fetch_counterexample :
    api_get ⟨500, sNotFound, none⟩ = .error (.connErr (httpMsg 500 sNotFound)) ∧
    (get_playlist_fetch (.error (.connErr (httpMsg 500 sNotFound))) (.ok .pnull)
        (.ok .pnull) (.ok .pnull)).attempts = [Endpoint.playlist, Endpoint.chart] :=
  ⟨rfl, rfl⟩

/-- C1, amended: `get_playlist_info` tries the playlist endpoint and at
most once the chart endpoint; the chart retry happens iff the playlist
attempt raises a ConnectionError whose message contains "404" or
"Not found" (every genuine 404 message does, but so do other statuses
whose body text contains those substrings); any other failure of the
playlist attempt is wrapped and raised with no fallback, and a failure of
the chart retry is wrapped and raised as the chart error. -/
theorem get_playlist_fetch_spec (p pt c ct : Except PyErr PyVal) :
    ((get_playlist_fetch p pt c ct).attempts = [Endpoint.playlist] ∨
      (get_playlist_fetch p pt c ct).attempts = [Endpoint.playlist, Endpoint.chart]) ∧
    ((get_playlist_fetch p pt c ct).attempts = [Endpoint.playlist, Endpoint.chart] ↔
      ∃ e, first_attempt p pt = .error e ∧ fallback_condition e = true) ∧
    (∀ e, first_attempt p pt = .error e → fallback_condition e = false →
      (get_playlist_fetch p pt c ct).result = .error (.moduleErr (playlistWrapMsg e))) ∧
    (∀ e e2, first_attempt p pt = .error e → fallback_condition e = true →
      first_attempt c ct = .error e2 →
      (get_playlist_fetch p pt c ct).result = .error (.moduleErr (chartWrapMsg e2))) := by
  rcases hfa : first_attempt p pt with e | pair
  · rcases hfb : fallback_condition e with _ | _
    · refine ⟨Or.inl (by simp [get_playlist_fetch, hfa, hfb]), ?_, ?_, ?_⟩
      · constructor
        · intro hl
          simp [get_playlist_fetch, hfa, hfb] at hl
        · rintro ⟨e2, he2, hc⟩
          injection he2 with h
          subst h
          simp [hfb] at hc
      · intro e2 he2 hcond
        injection he2 with h
        subst h
        simp [get_playlist_fetch, hfa, hfb]
      · intro e2 e3 he2 hcond _
        injection he2 with h
        subst h
        simp [hfb] at hcond
    · rcases hca : first_attempt c ct with e2 | pair2
      · refine ⟨Or.inr (by simp [get_playlist_fetch, hfa, hfb, hca]), ?_, ?_, ?_⟩
        · exact ⟨fun _ => ⟨e, rfl, hfb⟩,
            fun _ => by simp [get_playlist_fetch, hfa, hfb, hca]⟩
        · intro e3 he3 hcond
          injection he3 with h
          subst h
          simp [hfb] at hcond
        · intro e3 e4 he3 _ he4
          injection he3 with h
          subst h
          injection he4 with h4
          subst h4
          simp [get_playlist_fetch, hfa, hfb, hca]
      · refine ⟨Or.inr (by simp [get_playlist_fetch, hfa, hfb, hca]), ?_, ?_, ?_⟩
        · exact ⟨fun _ => ⟨e, rfl, hfb⟩,
            fun _ => by simp [get_playlist_fetch, hfa, hfb, hca]⟩
        · intro e3 he3 hcond
          injection he3 with h
          subst h
          simp [hfb] at hcond
        · intro e3 e4 he3 _ he4
          exact Except.noConfusion he4
  · refine ⟨Or.inl (by simp [get_playlist_fetch, hfa]), ?_, ?_, ?_⟩
    · constructor
      · intro hl
        simp [get_playlist_fetch, hfa] at hl
      · rintro ⟨e2, he2, _⟩
        exact Except.noConfusion he2
    · intro e2 he2 _
      exact Except.noConfusion he2
    · intro e2 e3 he2 _ _
      exact Except.noConfusion he2

/-- C1 witness: a clean playlist attempt stops after one endpoint, and a
genuine 404 from the playlist attempt triggers the chart retry. -/
theorem get_playlist_fetch_spec_witness :
    (get_playlist_fetch (.ok .pnull) (.ok .pnull) (.ok .pnull) (.ok .pnull)).attempts =
        [Endpoint.playlist] ∧
    (get_playlist_fetch (.error (.connErr (httpMsg 404 sNotFound))) (.ok .pnull)
        (.ok .pnull) (.ok .pnull)).attempts = [Endpoint.playlist, Endpoint.chart] := by
  constructor
  · rcases (get_playlist_fetch_spec (.ok .pnull) (.ok .pnull) (.ok .pnull) (.ok .pnull)).1
      with h | h
    · exact h
    · exfalso
      obtain ⟨e, he, _⟩ :=
        (get_playlist_fetch_spec (.ok .pnull) (.ok .pnull) (.ok .pnull) (.ok .pnull)).2.1.mp h
      exact Except.noConfusion he
  · exact (get_playlist_fetch_spec _ _ _ _).2.1.mpr
      ⟨.connErr (httpMsg 404 sNotFound), rfl, fallback_condition_of_404 sNotFound⟩

/-- The page loop performs at most one fetch per remaining page number. -/
theorem fetchRemaining_fetches_le {α : Type} (total : Nat)
    (fetchPage : Nat → Except PyErr (List α)) :
    ∀ (pages : List Nat) (acc : List α) (nf f : Nat),
      (fetchRemaining total fetchPage pages acc nf f).page_fetches ≤ f + pages.length := by
  intro pages
  induction pages with
  | nil =>
    intro acc nf f
    simp [fetchRemaining]
  | cons page rest ih =>
    intro acc nf f
    rcases h : fetchPage page with e | ts
    · simp only [fetchRemaining, h, List.length_cons]
      show f + 1 ≤ f + (rest.length + 1)
      omega
    · simp only [fetchRemaining, h, List.length_cons]
      by_cases hemp : ts.isEmpty = true
      · rw [if_pos hemp]
        show f + 1 ≤ f + (rest.length + 1)
        omega
      · rw [if_neg hemp]
        by_cases hge : total ≤ nf + ts.length
        · rw [if_pos hge]
          show f + 1 ≤ f + (rest.length + 1)
          omega
        · rw [if_neg hge]
          have := ih (acc ++ ts) (nf + ts.length) (f + 1)
          omega

/-- C3: with a first page of 100 tracks and a reported count of 250, the
loop fetches exactly pages 2 and 3 (three page fetches in total, counting
the page-1 fetch done before the loop) and the merged list has length 250
when the upstream pages carry 100 and 50 tracks; an empty intermediate
page stops the loop early with a logged warning and the shorter list; and
the number of loop fetches never exceeds the page count derived from the
reported total, so the loop is bounded. -/
theorem paginate_tracks_spec {α : Type} (fetchPage : Nat → Except PyErr (List α))
    (first_page l2 l3 : List α) :
    (first_page.length = 100 → fetchPage 2 = .ok l2 → l2.length = 100 →
      fetchPage 3 = .ok l3 → l3.length = 50 →
      (paginate_tracks first_page (some 250) fetchPage).page_fetches + 1 = 3 ∧
      (paginate_tracks first_page (some 250) fetchPage).tracks.length = 250) ∧
    (first_page.length = 100 → fetchPage 2 = .ok ([] : List α) →
      (paginate_tracks first_page (some 250) fetchPage).tracks = first_page ∧
      (paginate_tracks first_page (some 250) fetchPage).warned = true) ∧
    (∀ count, (paginate_tracks first_page count fetchPage).page_fetches ≤
      (effective_total first_page.length count - 1) / 100) := by
  have htot : ∀ n : Nat, effective_total n (some 250) = 250 := by
    intro n
    simp [effective_total]
  refine ⟨?_, ?_, ?_⟩
  · intro h100 h2 hl2 h3 hl3
    have hne2 : l2.isEmpty = false := by
      cases l2
      · simp at hl2
      · rfl
    have hne3 : l3.isEmpty = false := by
      cases l3
      · simp at hl3
      · rfl
    have hrun : fetchRemaining 250 fetchPage [2, 3] first_page first_page.length 0 =
        ⟨first_page ++ l2 ++ l3, 2, false⟩ := by
      simp [fetchRemaining, h2, h3, hne2, hne3, h100, hl2, hl3]
    have hkey : paginate_tracks first_page (some 250) fetchPage =
        ⟨first_page ++ l2 ++ l3, 2, false⟩ := by
      simp only [paginate_tracks, htot]
      rw [if_pos (by omega)]
      rw [show ((250 : Nat) - 1) / 100 = 2 from by norm_num]
      rw [show List.range' 2 2 = [2, 3] from rfl]
      exact hrun
    rw [hkey]
    simp [h100, hl2, hl3]
  · intro h100 h2
    have hrun : fetchRemaining 250 fetchPage [2, 3] first_page first_page.length 0 =
        ⟨first_page, 1, true⟩ := by
      simp [fetchRemaining, h2]
    have hkey : paginate_tracks first_page (some 250) fetchPage =
        ⟨first_page, 1, true⟩ := by
      simp only [paginate_tracks, htot]
      rw [if_pos (by omega)]
      rw [show ((250 : Nat) - 1) / 100 = 2 from by norm_num]
      rw [show List.range' 2 2 = [2, 3] from rfl]
      exact hrun
    rw [hkey]
    exact ⟨rfl, rfl⟩
  · intro count
    by_cases hlt : first_page.length < effective_total first_page.length count
    · have hrun := fetchRemaining_fetches_le (effective_total first_page.length count)
        fetchPage (List.range' 2 ((effective_total first_page.length count - 1) / 100))
        first_page first_page.length 0
      simp only [paginate_tracks, hlt, if_pos, List.length_range'] at hrun ⊢
      omega
    · simp [paginate_tracks, hlt]

/-- C3 witness: a concrete run with count 250 and full upstream pages, and
a concrete run with an empty page 2. -/
theorem paginate_tracks_spec_witness :
    (paginate_tracks (List.replicate 100 (0 : Nat)) (some 250)
        (fun p => if p = 2 then .ok (List.replicate 100 0) else
          .ok (List.replicate 50 0))).page_fetches + 1 = 3 ∧
    (paginate_tracks (List.replicate 100 (0 : Nat)) (some 250)
        (fun p => if p = 2 then .ok (List.replicate 100 0) else
          .ok (List.replicate 50 0))).tracks.length = 250 ∧
    (paginate_tracks (List.replicate 100 (0 : Nat)) (some 250)
        (fun _ => .ok ([] : List Nat))).warned = true := by
  have h1 := (paginate_tracks_spec
    (fun p => if p = 2 then .ok (List.replicate 100 0) else .ok (List.replicate 50 0))
    (List.replicate 100 (0 : Nat)) (List.replicate 100 0) (List.replicate 50 0)).1
    (by simp) rfl (by simp) rfl (by simp)
  have h2 := (paginate_tracks_spec (fun _ => .ok ([] : List Nat))
    (List.replicate 100 (0 : Nat)) [] []).2.1 (by simp) rfl
  exact ⟨h1.1, h1.2, h2.2⟩

/-- The numbering pass keeps the list length. -/
theorem annotateFrom_length (n : Nat) :
    ∀ (ts : List (Option BTrack)) (i : Nat), (annotateFrom n i ts).1.length = ts.length := by
  intro ts
  induction ts with
  | nil =>
    intro i
    rfl
  | cons ot rest ih =>
    intro i
    rcases ot with _ | t
    · simp [annotateFrom, ih]
    · rcases ht : t.id with _ | k
      · simp [annotateFrom, ht, ih]
      · by_cases hk : k ≠ 0 <;> simp [annotateFrom, ht, hk, ih]

/-- The annotated list of the numbering pass adds exactly one entry per
input entry, in order. -/
theorem annotateFrom_cons_tail (n i : Nat) (ot : Option BTrack)
    (rest : List (Option BTrack)) :
    ∃ h, (annotateFrom n i (ot :: rest)).1 = h :: (annotateFrom n (i + 1) rest).1 := by
  rcases ot with _ | t
  · exact ⟨none, rfl⟩
  · rcases ht : t.id with _ | k
    · refine ⟨some t, ?_⟩
      simp [annotateFrom, ht]
    · by_cases hk : k ≠ 0
      · refine ⟨some (annotTrack t i n), ?_⟩
        simp [annotateFrom, ht, hk]
      · refine ⟨some t, ?_⟩
        simp [annotateFrom, ht, hk]

/-- A valid entry at index `j` is annotated with ordinal `i + j + 1` and
total `n`. -/
theorem annotateFrom_get (n : Nat) :
    ∀ (ts : List (Option BTrack)) (i j : Nat) (t : BTrack) (k : Int),
      ts[j]? = some (some t) → t.id = some k → k ≠ 0 →
      (annotateFrom n i ts).1[j]? = some (some (annotTrack t (i + j) n)) := by
  intro ts
  induction ts with
  | nil =>
    intro i j t k hj
    simp at hj
  | cons ot rest ih =>
    intro i j t k hj hid hk
    cases j with
    | zero =>
      simp at hj
      subst hj
      simp [annotateFrom, hid, hk]
    | succ j =>
      simp only [List.getElem?_cons_succ] at hj
      obtain ⟨h, hh⟩ := annotateFrom_cons_tail n i ot rest
      rw [hh]
      simp only [List.getElem?_cons_succ]
      rw [show i + (j + 1) = i + 1 + j from by omega]
      exact ih (i + 1) j t k hj hid hk

/-- A valid entry at index `j` lands in the cache with its annotated
record. -/
theorem annotateFrom_cache_mem (n : Nat) :
    ∀ (ts : List (Option BTrack)) (i j : Nat) (t : BTrack) (k : Int),
      ts[j]? = some (some t) → t.id = some k → k ≠ 0 →
      (k, annotTrack t (i + j) n) ∈ (annotateFrom n i ts).2 := by
  intro ts
  induction ts with
  | nil =>
    intro i j t k hj
    simp at hj
  | cons ot rest ih =>
    intro i j t k hj hid hk
    have step : (annotateFrom n i (ot :: rest)).2 = (annotateFrom n (i + 1) rest).2 ∨
        ∃ p, (annotateFrom n i (ot :: rest)).2 = p :: (annotateFrom n (i + 1) rest).2 := by
      rcases ot with _ | t2
      · exact Or.inl rfl
      · rcases ht : t2.id with _ | k2
        · left
          simp [annotateFrom, ht]
        · by_cases hk2 : k2 ≠ 0
          · right
            exact ⟨(k2, annotTrack t2 i n), by simp [annotateFrom, ht, hk2]⟩
          · left
            simp [annotateFrom, ht, hk2]
    cases j with
    | zero =>
      simp at hj
      subst hj
      rw [show i + 0 = i from rfl]
      simp [annotateFrom, hid, hk]
    | succ j =>
      simp only [List.getElem?_cons_succ] at hj
      have hmem := ih (i + 1) j t k hj hid hk
      rw [show i + (j + 1) = i + 1 + j from by omega]
      rcases step with hs | ⟨p, hs⟩
      · rw [hs]
        exact hmem
      · rw [hs]
        exact List.mem_cons_of_mem _ hmem

/-- The cache keys of the numbering pass are exactly the valid ids of the
input, in order. -/
theorem annotateFrom_keys (n : Nat) :
    ∀ (ts : List (Option BTrack)) (i : Nat),
      (annotateFrom n i ts).2.map Prod.fst = ts.filterMap validId := by
  intro ts
  induction ts with
  | nil =>
    intro i
    rfl
  | cons ot rest ih =>
    intro i
    rcases ot with _ | t
    · simp [annotateFrom, validId, ih]
    · rcases ht : t.id with _ | k
      · simp [annotateFrom, validId, ht, ih]
      · by_cases hk : k ≠ 0 <;> simp [annotateFrom, validId, ht, hk, ih]

/-- A key absent from the cache looks up to nothing. -/
theorem dictLookup_eq_none (k : Int) :
    ∀ c : List (Int × BTrack), k ∉ c.map Prod.fst → dictLookup c k = none := by
  intro c
  induction c with
  | nil =>
    intro _
    rfl
  | cons p rest ih =>
    intro h
    rcases p with ⟨k2, v⟩
    simp only [List.map_cons, List.mem_cons] at h
    push_neg at h
    simp only [dictLookup, ih h.2]
    rw [if_neg (fun he => h.1 he.symm)]

/-- With pairwise distinct keys, the last-wins dict lookup returns the
unique binding of each key. -/
theorem dictLookup_mem_nodup :
    ∀ c : List (Int × BTrack), (c.map Prod.fst).Nodup →
      ∀ (k : Int) (v : BTrack), (k, v) ∈ c → dictLookup c k = some v := by
  intro c
  induction c with
  | nil =>
    intro _ k v h
    simp at h
  | cons p rest ih =>
    intro hnd k v hmem
    rcases p with ⟨k2, v2⟩
    simp only [List.map_cons, List.nodup_cons] at hnd
    rcases List.mem_cons.mp hmem with heq | hmem2
    · cases heq
      simp only [dictLookup, dictLookup_eq_none _ _ hnd.1]
      simp
    · simp only [dictLookup, ih hnd.2 k v hmem2]

/-- C4 counterexample: a playlist containing the same track id twice.
Both occurrences are annotated, but the entity cache maps the shared id to
the annotated record of the second occurrence, which differs from the
annotated record of the first, so the cache does not map each track id to
that track record. -/
theorem annotate_cache_counterexample :
    (annotateAndCache [some ⟨some 7, none, none⟩, some ⟨some 7, none, none⟩]).1.head? =
        some (some (annotTrack ⟨some 7, none, none⟩ 0 2)) ∧
    dictLookup (annotateAndCache [some ⟨some 7, none, none⟩,
        some ⟨some 7, none, none⟩]).2 7 =
      some (annotTrack ⟨some 7, none, none⟩ 1 2) ∧
    annotTrack ⟨some 7, none, none⟩ 1 2 ≠ annotTrack ⟨some 7, none, none⟩ 0 2 := by
  refine ⟨rfl, rfl, by decide⟩

/-- C4, amended: after reconciliation over a fully paginated list of
length N whose entries carry pairwise distinct truthy ids, the track at
0-based index i is annotated with `track_number = i + 1` and
`total_tracks = N`, and the entity cache maps its id to exactly this
annotated record (when an id repeats, the cache instead keeps the last
occurrence, as the counterexample shows). -/
theorem annotate_cache_spec (tracks : List (Option BTrack))
    (hnodup : (tracks.filterMap validId).Nodup) :
    (annotateAndCache tracks).1.length = tracks.length ∧
    (∀ (i : Nat) (t : BTrack) (k : Int),
      tracks[i]? = some (some t) → t.id = some k → k ≠ 0 →
      (annotateAndCache tracks).1[i]? = some (some (annotTrack t i tracks.length)) ∧
      dictLookup (annotateAndCache tracks).2 k = some (annotTrack t i tracks.length)) := by
  constructor
  · exact annotateFrom_length _ _ 0
  · intro i t k hi hid hk
    constructor
    · have h := annotateFrom_get tracks.length tracks 0 i t k hi hid hk
      simpa using h
    · have hmem := annotateFrom_cache_mem tracks.length tracks 0 i t k hi hid hk
      have hkeys := annotateFrom_keys tracks.length tracks 0
      apply dictLookup_mem_nodup
      · show (List.map Prod.fst (annotateFrom tracks.length 0 tracks).2).Nodup
        rw [hkeys]
        exact hnodup
      · show (k, annotTrack t i tracks.length) ∈ (annotateFrom tracks.length 0 tracks).2
        simpa using hmem

/-- C4 witness: a two-track playlist with distinct ids, checked through
the theorem at index 1. -/
theorem annotate_cache_spec_witness :
    (annotateAndCache [some ⟨some 3, none, none⟩, some ⟨some 8, none, none⟩]).1[1]? =
        some (some (annotTrack ⟨some 8, none, none⟩ 1 2)) ∧
    dictLookup (annotateAndCache [some ⟨some 3, none, none⟩,
        some ⟨some 8, none, none⟩]).2 8 =
      some (annotTrack ⟨some 8, none, none⟩ 1 2) :=
  (annotate_cache_spec _ (by decide)).2 1 ⟨some 8, none, none⟩ 8 rfl rfl (by decide)

/-- C10 counterexample: a 500 response whose body is the literal JSON
null makes `refresh` return `r.json()`, which is Python None — the same
value the function returns on success — so the claim that every
HTTP-level refresh failure yields a non-None error value is false. The
session is still left unchanged. -/
theorem refresh_null_body_counterexample :
    apiRefresh ⟨.pnull, .pnull, none⟩ ⟨500, sNull, some .pnull⟩ 0 =
      .ok (⟨.pnull, .pnull, none⟩, .pnull) :=
  rfl

/-- C10, amended: on any response whose status is not 200, `refresh`
returns the parsed JSON body when the body parses (a value that is
non-None except in the degenerate case of a literal JSON null body) or a
synthesized error record when it does not, and in both cases the session
fields `access_token`, `refresh_token` and `expires` are exactly as they
were before the call. -/
theorem refresh_failure_spec (sess : ApiSession) (r : HttpResponse) (now : Int)
    (h : r.status ≠ 200) :
    (∀ v, r.json = some v → apiRefresh sess r now = .ok (sess, v)) ∧
    (r.json = none → apiRefresh sess r now = .ok (sess, refreshFailedDict r.text)) := by
  constructor
  · intro v hv
    simp [apiRefresh, h, hv]
  · intro hv
    simp [apiRefresh, h, hv]

/-- C10 witness: concrete non-200 responses with a JSON body and with a
non-JSON body, both leaving the session untouched. -/
theorem refresh_failure_spec_witness :
    apiRefresh ⟨.pstr sHigh, .pstr sLossless, some 9⟩ ⟨401, sNull, some (.pdict [])⟩ 4 =
      .ok (⟨.pstr sHigh, .pstr sLossless, some 9⟩, .pdict []) ∧
    apiRefresh ⟨.pstr sHigh, .pstr sLossless, some 9⟩ ⟨500, sNotFound, none⟩ 4 =
      .ok (⟨.pstr sHigh, .pstr sLossless, some 9⟩, refreshFailedDict sNotFound) :=
  ⟨(refresh_failure_spec _ _ _ (by decide)).1 _ rfl,
   (refresh_failure_spec _ _ _ (by decide)).2 rfl⟩

/-- Digit characters written by `natCharsAux` are decimal digits. -/
theorem digitChar_isDigit : ∀ d, d < 10 → (Char.ofNat (48 + d)).isDigit = true := by
  decide

/-- A decimal digit is not the opening brace. -/
theorem isDigit_ne_braceOpen {c : Char} (h : c.isDigit = true) : c ≠ braceOpen := by
  intro he
  subst he
  simp [Char.isDigit, braceOpen] at h

/-- A decimal digit is not the closing brace. -/
theorem isDigit_ne_braceClose {c : Char} (h : c.isDigit = true) : c ≠ braceClose := by
  intro he
  subst he
  simp [Char.isDigit, braceClose] at h

/-- The digit characters of a number do not depend on the fuel, once the
fuel exceeds the number. -/
theorem natCharsAux_fuel_inv :
    ∀ f1 n, n < f1 → ∀ f2, n < f2 → natCharsAux f1 n = natCharsAux f2 n := by
  intro f1
  induction f1 with
  | zero =>
    intro n h
    omega
  | succ g ih =>
    intro n h f2 h2
    cases f2 with
    | zero => omega
    | succ g2 =>
      by_cases hn : n < 10
      · simp [natCharsAux, hn]
      · have hd : n / 10 < g := by omega
        have hd2 : n / 10 < g2 := by omega
        simp only [natCharsAux, hn, if_false]
        rw [ih (n / 10) hd g2 hd2]

/-- Small numbers print as a single digit. -/
theorem natChars_small {n : Nat} (h : n < 10) : natChars n = [Char.ofNat (48 + n)] := by
  simp [natChars, natCharsAux, h]

/-- Numbers of ten or more print as their quotient followed by their last
digit. -/
theorem natChars_step {n : Nat} (h : 10 ≤ n) :
    natChars n = natChars (n / 10) ++ [Char.ofNat (48 + n % 10)] := by
  have hn : ¬n < 10 := by omega
  have h1 : natChars n = natCharsAux n (n / 10) ++ [Char.ofNat (48 + n % 10)] := by
    show natCharsAux (n + 1) n = _
    simp [natCharsAux, hn]
  rw [h1, natCharsAux_fuel_inv n (n / 10) (by omega) (n / 10 + 1) (by omega)]
  rfl

/-- Every character of a printed number is a digit. -/
theorem natChars_all_digit : ∀ n, ∀ c ∈ natChars n, c.isDigit = true := by
  have key : ∀ fuel n, n < fuel → ∀ c ∈ natCharsAux fuel n, c.isDigit = true := by
    intro fuel
    induction fuel with
    | zero =>
      intro n h
      omega
    | succ g ih =>
      intro n h c hc
      by_cases hn : n < 10
      · simp [natCharsAux, hn] at hc
        subst hc
        exact digitChar_isDigit n hn
      · simp only [natCharsAux, hn, if_false, List.mem_append, List.mem_singleton] at hc
        rcases hc with hc | hc
        · exact ih (n / 10) (by omega) c hc
        · subst hc
          exact digitChar_isDigit (n % 10) (by omega)
  intro n
  exact key (n + 1) n (by omega)

/-- Length of the printed number, by magnitude. -/
theorem natChars_len1 {n : Nat} (h : n < 10) : (natChars n).length = 1 := by
  rw [natChars_small h]
  rfl

theorem natChars_len2 {n : Nat} (h1 : 10 ≤ n) (h2 : n < 100) : (natChars n).length = 2 := by
  rw [natChars_step h1]
  rw [List.length_append, natChars_len1 (by omega : n / 10 < 10)]
  rfl

theorem natChars_len3 {n : Nat} (h1 : 100 ≤ n) (h2 : n < 1000) :
    (natChars n).length = 3 := by
  rw [natChars_step (by omega)]
  rw [List.length_append, natChars_len2 (by omega : 10 ≤ n / 10) (by omega : n / 10 < 100)]
  rfl

theorem natChars_len4 {n : Nat} (h1 : 1000 ≤ n) (h2 : n < 10000) :
    (natChars n).length = 4 := by
  rw [natChars_step (by omega)]
  rw [List.length_append, natChars_len3 (by omega : 100 ≤ n / 10) (by omega : n / 10 < 1000)]
  rfl

/-- The printed number is never empty. -/
theorem natChars_ne_nil (n : Nat) : natChars n ≠ [] := by
  by_cases h : n < 10
  · rw [natChars_small h]
    simp
  · rw [natChars_step (by omega)]
    simp

/-- Leading digits of an all-digit block followed by anything. -/
theorem leadDigits_append_digits (d : List Char) (hd : ∀ c ∈ d, c.isDigit = true) :
    ∀ rest, leadDigits (d ++ rest) = d.length + leadDigits rest := by
  induction d with
  | nil =>
    intro rest
    simp [leadDigits]
  | cons c cs ih =>
    intro rest
    have hc : c.isDigit = true := hd c (List.mem_cons_self c cs)
    have ihc := ih (fun x hx => hd x (List.mem_cons_of_mem c hx)) rest
    simp [leadDigits, hc, ihc]
    omega

/-- A list with no digits has no leading digits. -/
theorem leadDigits_nodigit {l : List Char} (h : ∀ c ∈ l, c.isDigit = false) :
    leadDigits l = 0 := by
  cases l with
  | nil => rfl
  | cons c cs =>
    have hc := h c (List.mem_cons_self c cs)
    simp [leadDigits, hc]

/-- No match can start where fewer than three digits lead. -/
theorem matchResAt_none_of_lead_lt3 {l : List Char} (h : leadDigits l < 3) :
    matchResAt l = none := by
  unfold matchResAt
  rw [if_neg (fun hc => by omega), if_neg (fun hc => by omega)]

/-- A successful match consumes at least seven characters. -/
theorem matchResAt_pos {l : List Char} {m : Nat} (h : matchResAt l = some m) : 7 ≤ m := by
  unfold matchResAt at h
  split at h
  · unfold secondRun at h
    split at h
    · simp at h
      omega
    · split at h
      · simp at h
        omega
      · simp at h
  · split at h
    · unfold secondRun at h
      split at h
      · simp at h
        omega
      · split at h
        · simp at h
          omega
        · simp at h
    · cases h

/-- Dropping a leading block of an append. -/
theorem drop_block (d : List Char) (c : Char) (t : List Char) :
    (d ++ c :: t).drop (d.length + 1) = t := by
  have h1 : d ++ c :: t = (d ++ [c]) ++ t := by simp
  have h2 : d.length + 1 = (d ++ [c]).length := by simp
  rw [h1, h2, List.drop_left]

/-- The regex matches exactly a three-or-four digit block, an `x`, and a
three-or-four digit block, when the next character is not a digit. -/
theorem matchResAt_exact (d1 d2 rest : List Char)
    (hd1 : ∀ c ∈ d1, c.isDigit = true) (hd2 : ∀ c ∈ d2, c.isDigit = true)
    (hl1 : d1.length = 3 ∨ d1.length = 4) (hl2 : d2.length = 3 ∨ d2.length = 4)
    (hrest : leadDigits rest = 0) :
    matchResAt (d1 ++ 'x' :: (d2 ++ rest)) = some (d1.length + 1 + d2.length) := by
  have hx : ('x').isDigit = false := by decide
  have hlead : leadDigits (d1 ++ 'x' :: (d2 ++ rest)) = d1.length := by
    rw [leadDigits_append_digits d1 hd1]
    simp [leadDigits, hx]
  have hlead2 : leadDigits (d2 ++ rest) = d2.length := by
    rw [leadDigits_append_digits d2 hd2, hrest]
    omega
  have hsec : secondRun (d2 ++ rest) = some d2.length := by
    unfold secondRun
    rw [hlead2]
    rcases hl2 with h | h <;> rw [h] <;> norm_num
  have hget : (d1 ++ 'x' :: (d2 ++ rest)).get? d1.length = some 'x' := by
    rw [List.get?_eq_getElem?]
    rw [List.getElem?_append_right (le_refl d1.length)]
    simp
  have hdrop : (d1 ++ 'x' :: (d2 ++ rest)).drop (d1.length + 1) = d2 ++ rest :=
    drop_block _ _ _
  rcases hl1 with h3 | h4
  · unfold matchResAt
    rw [if_neg (fun hc => by rw [hlead, h3] at hc; omega)]
    rw [if_pos ⟨by rw [hlead, h3], by rw [← h3, hget]⟩]
    rw [show (4 : Nat) = d1.length + 1 from by omega, hdrop, hsec]
    simp
  · unfold matchResAt
    rw [if_pos ⟨by rw [hlead, h4], by rw [show (4 : Nat) = d1.length from h4.symm, hget]⟩]
    rw [show (5 : Nat) = d1.length + 1 from by omega, hdrop, hsec]
    simp

/-- The substitution scan of the empty list. -/
theorem subAllAux_nil : ∀ fuel, subAllAux fuel [] = [] := by
  intro fuel
  cases fuel <;> rfl

/-- The substitution scan does not depend on the fuel once the fuel covers
the list length. -/
theorem subAllAux_fuel_inv :
    ∀ f1 (l : List Char), l.length ≤ f1 → ∀ f2, l.length ≤ f2 →
      subAllAux f1 l = subAllAux f2 l := by
  intro f1
  induction f1 with
  | zero =>
    intro l h f2 h2
    have : l = [] := List.length_eq_zero.mp (by omega)
    subst this
    rw [subAllAux_nil, subAllAux_nil]
  | succ g ih =>
    intro l h f2 h2
    cases l with
    | nil => rw [subAllAux_nil, subAllAux_nil]
    | cons c cs =>
      cases f2 with
      | zero => simp at h2
      | succ g2 =>
        simp only [List.length_cons] at h h2
        show (match matchResAt (c :: cs) with
          | some n => whTemplate ++ subAllAux g ((c :: cs).drop n)
          | none => c :: subAllAux g cs) =
          (match matchResAt (c :: cs) with
          | some n => whTemplate ++ subAllAux g2 ((c :: cs).drop n)
          | none => c :: subAllAux g2 cs)
        rcases hm : matchResAt (c :: cs) with _ | n
        · show c :: subAllAux g cs = c :: subAllAux g2 cs
          rw [ih cs (by omega) g2 (by omega)]
        · have hn := matchResAt_pos hm
          have hlen : ((c :: cs).drop n).length ≤ g := by
            simp only [List.length_drop, List.length_cons]
            omega
          have hlen2 : ((c :: cs).drop n).length ≤ g2 := by
            simp only [List.length_drop, List.length_cons]
            omega
          show whTemplate ++ subAllAux g ((c :: cs).drop n) =
            whTemplate ++ subAllAux g2 ((c :: cs).drop n)
          rw [ih _ hlen g2 hlen2]

/-- Scan step when no match starts at the head. -/
theorem subAll_cons_none {c : Char} {cs : List Char} (hm : matchResAt (c :: cs) = none) :
    subAll (c :: cs) = c :: subAll cs := by
  show subAllAux (cs.length + 1) (c :: cs) = _
  show (match matchResAt (c :: cs) with
    | some n => whTemplate ++ subAllAux cs.length ((c :: cs).drop n)
    | none => c :: subAllAux cs.length cs) = _
  rw [hm]
  rfl

/-- Scan step when a match starts at the head: the match is replaced by
the template and the scan continues after it. -/
theorem subAll_match {l : List Char} {m : Nat} (hm : matchResAt l = some m) :
    subAll l = whTemplate ++ subAll (l.drop m) := by
  cases l with
  | nil =>
    have : matchResAt ([] : List Char) = none := by
      apply matchResAt_none_of_lead_lt3
      simp [leadDigits]
    rw [this] at hm
    cases hm
  | cons c cs =>
    have hp := matchResAt_pos hm
    show subAllAux (cs.length + 1) (c :: cs) = _
    show (match matchResAt (c :: cs) with
      | some n => whTemplate ++ subAllAux cs.length ((c :: cs).drop n)
      | none => c :: subAllAux cs.length cs) = _
    rw [hm]
    show whTemplate ++ subAllAux cs.length ((c :: cs).drop m) =
      whTemplate ++ subAll ((c :: cs).drop m)
    congr 1
    apply subAllAux_fuel_inv
    · simp only [List.length_drop, List.length_cons]
      omega
    · exact le_refl _

/-- The scan passes over characters that are not digits. -/
theorem subAll_append_nondigit {a : List Char} (ha : ∀ c ∈ a, c.isDigit = false) :
    ∀ l, subAll (a ++ l) = a ++ subAll l := by
  induction a with
  | nil =>
    intro l
    rfl
  | cons c a2 ih =>
    intro l
    have hc : c.isDigit = false := ha c (List.mem_cons_self c a2)
    have hm : matchResAt (c :: (a2 ++ l)) = none := by
      apply matchResAt_none_of_lead_lt3
      simp [leadDigits, hc]
    rw [List.cons_append, subAll_cons_none hm,
      ih (fun x hx => ha x (List.mem_cons_of_mem c hx)) l]
    rfl

/-- The scan leaves a digit-free list unchanged. -/
theorem subAll_nodigit_id {l : List Char} (h : ∀ c ∈ l, c.isDigit = false) :
    subAll l = l := by
  have h2 := subAll_append_nondigit h []
  rw [List.append_nil] at h2
  rw [h2]
  simp [subAll, subAllAux]

/-- A match somewhere in the tail part is found by the search. -/
theorem hasResMatch_append_of {l : List Char} (hl : (matchResAt l).isSome = true) :
    ∀ a, hasResMatch (a ++ l) = true := by
  intro a
  induction a with
  | nil =>
    cases l with
    | nil => simp [matchResAt_none_of_lead_lt3, leadDigits] at hl
    | cons c cs => simp [hasResMatch, hl]
  | cons c a2 ih =>
    simp [hasResMatch, ih]

/-- The search over a digit-free list finds nothing. -/
theorem hasResMatch_nodigit_false {l : List Char} (h : ∀ c ∈ l, c.isDigit = false) :
    hasResMatch l = false := by
  induction l with
  | nil => rfl
  | cons c cs ih =>
    have hc : c.isDigit = false := h c (List.mem_cons_self c cs)
    have hm : matchResAt (c :: cs) = none := by
      apply matchResAt_none_of_lead_lt3
      simp [leadDigits, hc]
    simp [hasResMatch, hm, ih (fun x hx => h x (List.mem_cons_of_mem c hx))]

/-- The search skips over leading non-digit characters. -/
theorem hasResMatch_append_nondigit {a : List Char} (ha : ∀ c ∈ a, c.isDigit = false) :
    ∀ l, hasResMatch (a ++ l) = hasResMatch l := by
  induction a with
  | nil =>
    intro l
    rfl
  | cons c a2 ih =>
    intro l
    have hc : c.isDigit = false := ha c (List.mem_cons_self c a2)
    have hm : matchResAt (c :: (a2 ++ l)) = none := by
      apply matchResAt_none_of_lead_lt3
      simp [leadDigits, hc]
    rw [List.cons_append]
    simp only [hasResMatch, hm]
    simp [ih (fun x hx => ha x (List.mem_cons_of_mem c hx)) l]

/-- The substitution of the format fields passes over a character that is
not an opening brace. -/
theorem formatWH_cons_nonbrace {c : Char} (hc : c ≠ braceOpen) (rep cs : List Char) :
    formatWH rep (c :: cs) = c :: formatWH rep cs := by
  match cs with
  | [] => rfl
  | [k] => rfl
  | k :: c2 :: rest =>
    show (if c = braceOpen ∧ (k = 'w' ∨ k = 'h') ∧ c2 = braceClose then
        rep ++ formatWH rep rest
      else c :: formatWH rep (k :: c2 :: rest)) = _
    rw [if_neg (fun h => hc h.1)]

/-- The substitution passes over a brace-free prefix. -/
theorem formatWH_append_nonbrace {a : List Char} (ha : ∀ c ∈ a, c ≠ braceOpen)
    (rep : List Char) : ∀ l, formatWH rep (a ++ l) = a ++ formatWH rep l := by
  induction a with
  | nil =>
    intro l
    rfl
  | cons c a2 ih =>
    intro l
    have hc : c ≠ braceOpen := ha c (List.mem_cons_self c a2)
    rw [List.cons_append, formatWH_cons_nonbrace hc,
      ih (fun x hx => ha x (List.mem_cons_of_mem c hx)) l]
    rfl

/-- The substitution leaves a brace-free list unchanged. -/
theorem formatWH_nobrace_id {l : List Char} (h : ∀ c ∈ l, c ≠ braceOpen)
    (rep : List Char) : formatWH rep l = l := by
  have h2 := formatWH_append_nonbrace h rep []
  rw [List.append_nil] at h2
  rw [h2]
  simp [formatWH]

/-- The substitution replaces the full `w` by `h` template. -/
theorem formatWH_template (rep : List Char) :
    ∀ l, formatWH rep (whTemplate ++ l) = rep ++ 'x' :: (rep ++ formatWH rep l) := by
  intro l
  show formatWH rep (braceOpen :: 'w' :: braceClose :: 'x' :: braceOpen :: 'h' ::
    braceClose :: l) = _
  rw [show formatWH rep (braceOpen :: 'w' :: braceClose :: ('x' :: braceOpen :: 'h' ::
      braceClose :: l)) = rep ++ formatWH rep ('x' :: braceOpen :: 'h' :: braceClose :: l)
    from by
      show (if braceOpen = braceOpen ∧ ('w' = 'w' ∨ 'w' = 'h') ∧ braceClose = braceClose
        then rep ++ formatWH rep ('x' :: braceOpen :: 'h' :: braceClose :: l)
        else _) = _
      rw [if_pos ⟨rfl, Or.inl rfl, rfl⟩]]
  rw [formatWH_cons_nonbrace (by decide) rep]
  rw [show formatWH rep (braceOpen :: 'h' :: braceClose :: l) = rep ++ formatWH rep l
    from by
      show (if braceOpen = braceOpen ∧ ('h' = 'w' ∨ 'h' = 'h') ∧ braceClose = braceClose
        then rep ++ formatWH rep l
        else _) = _
      rw [if_pos ⟨rfl, Or.inr rfl, rfl⟩]]

/-- When the substituted size has at most two digits, the size-by-size
block flanked by digit-free text contains no resolution pattern. -/
theorem hasResMatch_small_block {rep b : List Char}
    (hrep : ∀ c ∈ rep, c.isDigit = true) (hb : ∀ c ∈ b, c.isDigit = false)
    (hlen : rep.length ≤ 2) :
    hasResMatch (rep ++ 'x' :: (rep ++ b)) = false := by
  have hxd : ('x').isDigit = false := by decide
  match rep, hlen with
  | [], _ =>
    apply hasResMatch_nodigit_false
    intro c hc
    simp at hc
    rcases hc with rfl | hc
    · exact hxd
    · exact hb c hc
  | [c1], _ =>
    have hc1 : c1.isDigit = true := hrep c1 (by simp)
    have h1 : matchResAt (c1 :: 'x' :: c1 :: b) = none := by
      apply matchResAt_none_of_lead_lt3
      simp [leadDigits, hc1, hxd]
    have h2 : matchResAt ('x' :: c1 :: b) = none := by
      apply matchResAt_none_of_lead_lt3
      simp [leadDigits, hxd]
    have h3 : matchResAt (c1 :: b) = none := by
      apply matchResAt_none_of_lead_lt3
      simp [leadDigits, hc1, leadDigits_nodigit hb]
    show hasResMatch (c1 :: 'x' :: c1 :: b) = false
    simp [hasResMatch, h1, h2, h3, hasResMatch_nodigit_false hb]
  | [c1, c2], _ =>
    have hc1 : c1.isDigit = true := hrep c1 (by simp)
    have hc2 : c2.isDigit = true := hrep c2 (by simp)
    have hlb : leadDigits b = 0 := leadDigits_nodigit hb
    have h1 : matchResAt (c1 :: c2 :: 'x' :: c1 :: c2 :: b) = none := by
      apply matchResAt_none_of_lead_lt3
      simp [leadDigits, hc1, hc2, hxd]
    have h2 : matchResAt (c2 :: 'x' :: c1 :: c2 :: b) = none := by
      apply matchResAt_none_of_lead_lt3
      simp [leadDigits, hc2, hxd]
    have h3 : matchResAt ('x' :: c1 :: c2 :: b) = none := by
      apply matchResAt_none_of_lead_lt3
      simp [leadDigits, hxd]
    have h4 : matchResAt (c1 :: c2 :: b) = none := by
      apply matchResAt_none_of_lead_lt3
      simp [leadDigits, hc1, hc2, hlb]
    have h5 : matchResAt (c2 :: b) = none := by
      apply matchResAt_none_of_lead_lt3
      simp [leadDigits, hc2, hlb]
    show hasResMatch (c1 :: c2 :: 'x' :: c1 :: c2 :: b) = false
    simp [hasResMatch, h1, h2, h3, h4, h5, hasResMatch_nodigit_false hb]

/-- Unfolding of the artwork URL generator. -/
theorem generate_artwork_url_def (u : List Char) (s : Nat) :
    generate_artwork_url u s =
      formatWH (natChars (if s > 1400 then 1400 else s))
        (if hasResMatch u then subAll u else u) := rfl

/-- C8 counterexample: for the cover URL `a12345x678` and size 500, the
first application rewrites the matched substring `2345x678` and yields
`a1500x500`; the second application then matches `1500x500`, including the
leftover digit `1`, and yields `a500x500`, so templating applied twice
differs from templating applied once. -/
theorem artwork_url_counterexample :
    generate_artwork_url (generate_artwork_url
        ['a', '1', '2', '3', '4', '5', 'x', '6', '7', '8'] 500) 500 ≠
      generate_artwork_url ['a', '1', '2', '3', '4', '5', 'x', '6', '7', '8'] 500 := by
  decide

/-- A URL segment that the format step and the regex both pass over: no
digits and no braces. -/
def cleanSeg (l : List Char) : Prop :=
  ∀ c ∈ l, c.isDigit = false ∧ c ≠ braceOpen ∧ c ≠ braceClose

instance cleanSeg_decidable : DecidablePred cleanSeg := fun l =>
  inferInstanceAs (Decidable (∀ c ∈ l, c.isDigit = false ∧ c ≠ braceOpen ∧ c ≠ braceClose))

/-- C8, amended: artwork URL templating is idempotent for URLs made of a
digit-free, brace-free prefix and suffix around one resolution core —
either the `w` by `h` template or a literal three-or-four digit by
three-or-four digit resolution. (For other URLs it can fail: as the
counterexample shows, a digit adjacent to the rewritten region merges
into a fresh resolution pattern on the second pass.) -/
theorem artwork_idempotent_amended (s : Nat) (a b t : List Char)
    (ha : cleanSeg a) (hb : cleanSeg b)
    (ht : t = whTemplate ∨
      ∃ d1 d2, t = d1 ++ 'x' :: d2 ∧ (∀ c ∈ d1, c.isDigit = true) ∧
        (∀ c ∈ d2, c.isDigit = true) ∧ (d1.length = 3 ∨ d1.length = 4) ∧
        (d2.length = 3 ∨ d2.length = 4)) :
    generate_artwork_url (generate_artwork_url (a ++ t ++ b) s) s =
      generate_artwork_url (a ++ t ++ b) s := by
  have hxd : ('x').isDigit = false := by decide
  have hxo : ('x') ≠ braceOpen := by decide
  have had : ∀ c ∈ a, c.isDigit = false := fun c hc => (ha c hc).1
  have hbd : ∀ c ∈ b, c.isDigit = false := fun c hc => (hb c hc).1
  have hao : ∀ c ∈ a, c ≠ braceOpen := fun c hc => (ha c hc).2.1
  have hbo : ∀ c ∈ b, c ≠ braceOpen := fun c hc => (hb c hc).2.1
  obtain ⟨sz, hszdef⟩ : ∃ z, (if s > 1400 then 1400 else s) = z := ⟨_, rfl⟩
  have hszle : sz ≤ 1400 := by
    rw [← hszdef]
    split <;> omega
  have hrepd : ∀ c ∈ natChars sz, c.isDigit = true := natChars_all_digit sz
  have hrepo : ∀ c ∈ natChars sz, c ≠ braceOpen :=
    fun c hc => isDigit_ne_braceOpen (hrepd c hc)
  have step1 : generate_artwork_url (a ++ t ++ b) s =
      a ++ (natChars sz ++ 'x' :: (natChars sz ++ b)) := by
    rw [generate_artwork_url_def, hszdef]
    rcases ht with htpl | ⟨d1, d2, htd, hd1, hd2, hl1, hl2⟩
    · subst htpl
      have hnm : hasResMatch (a ++ (whTemplate ++ b)) = false := by
        apply hasResMatch_nodigit_false
        intro c hc
        simp only [List.mem_append] at hc
        rcases hc with hc | hc | hc
        · exact had c hc
        · have hw : c = braceOpen ∨ c = 'w' ∨ c = braceClose ∨ c = 'x' ∨ c = braceOpen ∨
              c = 'h' ∨ c = braceClose := by simpa [whTemplate] using hc
          rcases hw with rfl | rfl | rfl | rfl | rfl | rfl | rfl <;> decide
        · exact hbd c hc
      rw [if_neg (by simp [hnm])]
      rw [List.append_assoc, formatWH_append_nonbrace hao, formatWH_template,
        formatWH_nobrace_id hbo]
    · subst htd
      have harr : a ++ (d1 ++ 'x' :: d2) ++ b = a ++ (d1 ++ 'x' :: (d2 ++ b)) := by
        simp [List.append_assoc]
      rw [harr]
      have hm : matchResAt (d1 ++ 'x' :: (d2 ++ b)) = some (d1.length + 1 + d2.length) :=
        matchResAt_exact d1 d2 b hd1 hd2 hl1 hl2 (leadDigits_nodigit hbd)
      have hhas : hasResMatch (a ++ (d1 ++ 'x' :: (d2 ++ b))) = true := by
        apply hasResMatch_append_of
        rw [hm]
        rfl
      rw [if_pos hhas]
      rw [subAll_append_nondigit had, subAll_match hm]
      have hdrop : (d1 ++ 'x' :: (d2 ++ b)).drop (d1.length + 1 + d2.length) = b := by
        have heq : d1 ++ 'x' :: (d2 ++ b) = (d1 ++ 'x' :: d2) ++ b := by simp
        rw [heq,
          (by simp [List.length_append]; omega :
            d1.length + 1 + d2.length = (d1 ++ 'x' :: d2).length)]
        exact List.drop_left _ _
      rw [hdrop, subAll_nodigit_id hbd]
      rw [formatWH_append_nonbrace hao, formatWH_template, formatWH_nobrace_id hbo]
  rw [step1, generate_artwork_url_def, hszdef]
  by_cases hbig : 100 ≤ sz
  · have hlen : (natChars sz).length = 3 ∨ (natChars sz).length = 4 := by
      by_cases h1000 : sz < 1000
      · exact Or.inl (natChars_len3 hbig h1000)
      · exact Or.inr (natChars_len4 (by omega) (by omega))
    have hm2 : matchResAt (natChars sz ++ 'x' :: (natChars sz ++ b)) =
        some ((natChars sz).length + 1 + (natChars sz).length) :=
      matchResAt_exact _ _ b hrepd hrepd hlen hlen (leadDigits_nodigit hbd)
    have hhas2 : hasResMatch (a ++ (natChars sz ++ 'x' :: (natChars sz ++ b))) = true := by
      apply hasResMatch_append_of
      rw [hm2]
      rfl
    rw [if_pos hhas2]
    rw [subAll_append_nondigit had, subAll_match hm2]
    have hdrop2 : (natChars sz ++ 'x' :: (natChars sz ++ b)).drop
        ((natChars sz).length + 1 + (natChars sz).length) = b := by
      have heq : natChars sz ++ 'x' :: (natChars sz ++ b) =
          (natChars sz ++ 'x' :: natChars sz) ++ b := by simp
      rw [heq,
        (by simp [List.length_append]; omega :
          (natChars sz).length + 1 + (natChars sz).length =
            (natChars sz ++ 'x' :: natChars sz).length)]
      exact List.drop_left _ _
    rw [hdrop2, subAll_nodigit_id hbd]
    rw [formatWH_append_nonbrace hao, formatWH_template, formatWH_nobrace_id hbo]
  · have hlen2 : (natChars sz).length ≤ 2 := by
      by_cases h10 : sz < 10
      · rw [natChars_len1 h10]
        omega
      · rw [natChars_len2 (by omega) (by omega)]
    have hnm2 : hasResMatch (a ++ (natChars sz ++ 'x' :: (natChars sz ++ b))) = false := by
      rw [hasResMatch_append_nondigit had]
      exact hasResMatch_small_block hrepd hbd hlen2
    rw [if_neg (by simp [hnm2])]
    apply formatWH_nobrace_id
    intro c hc
    simp only [List.mem_append, List.mem_cons] at hc
    rcases hc with hc | hc | rfl | hc | hc
    · exact hao c hc
    · exact hrepo c hc
    · exact hxo
    · exact hrepo c hc
    · exact hbo c hc

/-- C8 witness: the amended idempotence at a concrete clean URL, a
template core and size 500. -/
theorem artwork_idempotent_amended_witness :
    generate_artwork_url (generate_artwork_url
        (['/'] ++ whTemplate ++ ['/', 'j', 'p', 'g']) 500) 500 =
      generate_artwork_url (['/'] ++ whTemplate ++ ['/', 'j', 'p', 'g']) 500 :=
  artwork_idempotent_amended 500 ['/'] ['/', 'j', 'p', 'g'] whTemplate
    (by decide) (by decide) (Or.inl rfl)
